import Mathlib

/-!
Shallow embedding of the composition-timeline core of `src/app.py`
(video-production helper).  Python floats are modelled as exact
rationals (ℚ), Python dicts keyed by strings as association lists in
insertion order, and the filesystem / network effects as explicit
parameters (the Boolean result a `save_json_file` call would return,
the success of a `requests.get`) together with an event trace in the
result of each operation.  Python `round` (round-half-to-even on one
argument) is modelled by `pyRound`.
-/

/-- Python `round(q)` for a real value `q`: round half to even
(banker's rounding), as used by `int(round(...))` throughout
`app.py`. -/
def pyRound (q : ℚ) : ℤ :=
  let n : ℤ := ⌊q⌋
  let f : ℚ := q - (n : ℚ)
  if f < 1/2 then n
  else if 1/2 < f then n + 1
  else if n % 2 = 0 then n else n + 1

/-- The list `[0, 1, ..., n-1]` as integers; used to state the
track-compactness invariant. -/
def rangeZ (n : ℕ) : List ℤ :=
  (List.range n).map (fun k => (k : ℤ))

/-- Lookup in an association list modelling a Python dict
(`d.get(key)` / `key in d`). -/
def lookupAssoc {α : Type} : List (String × α) → String → Option α
  | [], _ => none
  | (k, v) :: rest, key => if k = key then some v else lookupAssoc rest key

/-- Assignment `d[key] = v` on a Python dict: overwrite in place if the
key exists, otherwise append (dicts preserve insertion order). -/
def setKeyAssoc {α : Type} : List (String × α) → String → α → List (String × α)
  | [], key, v => [(key, v)]
  | (k, w) :: rest, key, v =>
    if k = key then (k, v) :: rest else (k, w) :: setKeyAssoc rest key v

/-- Strip leading and trailing whitespace from a character list
(Python `str.strip()` with no argument). -/
def stripChars (l : List Char) : List Char :=
  ((l.dropWhile Char.isWhitespace).reverse.dropWhile Char.isWhitespace).reverse

/-- Numeric value of a digit string. -/
def digitsVal (l : List Char) : ℕ :=
  l.foldl (fun n c => n * 10 + (c.toNat - 48)) 0

/-- Python `int(s)` on a string: optional surrounding whitespace, an
optional sign, then decimal digits; anything else raises `ValueError`
(modelled as `none`). -/
def parsePyInt (s : String) : Option ℤ :=
  let t := stripChars s.toList
  let signed : ℤ × List Char :=
    match t with
    | '-' :: rest => (-1, rest)
    | '+' :: rest => (1, rest)
    | _ => (1, t)
  if signed.2 ≠ [] ∧ signed.2.all Char.isDigit then
    some (signed.1 * (digitsVal signed.2 : ℤ))
  else none

/-- Python `float(s)` on a string, restricted to the plain decimal
forms `[+-]digits[.digits]` that the tool's inputs use (exponents,
`inf` and `nan` are not needed by any claim); `"abc"` raises
`ValueError`, modelled as `none`. -/
def parsePyFloat (s : String) : Option ℚ :=
  let t := stripChars s.toList
  let signed : ℚ × List Char :=
    match t with
    | '-' :: rest => (-1, rest)
    | '+' :: rest => (1, rest)
    | _ => (1, t)
  match signed.2.splitOn '.' with
  | [d] =>
    if d ≠ [] ∧ d.all Char.isDigit then
      some (signed.1 * (digitsVal d : ℚ))
    else none
  | [d, f] =>
    if (d ≠ [] ∨ f ≠ []) ∧ d.all Char.isDigit ∧ f.all Char.isDigit then
      some (signed.1 * ((digitsVal d : ℚ) + (digitsVal f : ℚ) / (10 : ℚ) ^ f.length))
    else none
  | _ => none

/-- Tail of `l` after the first occurrence of the (non-empty) pattern
`sep`, or `none` when `sep` does not occur; models Python's
`sep in s` test together with `s.split(sep)[1:]`. -/
def findMarker (sep : List Char) : List Char → Option (List Char)
  | [] => none
  | c :: rest =>
    if sep.isPrefixOf (c :: rest) then some ((c :: rest).drop sep.length)
    else findMarker sep rest

/-- Prefix of `l` up to (excluding) the first occurrence of `sep`. -/
def takeUntilMarker (sep : List Char) : List Char → List Char
  | [] => []
  | c :: rest =>
    if sep.isPrefixOf (c :: rest) then []
    else c :: takeUntilMarker sep rest

/-- Python `s.split(sep)[1]` when `sep` occurs in `s` (`none`
otherwise): the text between the first occurrence of `sep` and the
next occurrence (or the end). -/
def pySplitSecond (sep : List Char) (l : List Char) : Option (List Char) :=
  (findMarker sep l).map (takeUntilMarker sep)

/-- Python `os.path.basename`: the part after the last `/`. -/
def basename (p : String) : String :=
  String.mk ((p.toList.reverse.takeWhile (fun c => c ≠ '/')).reverse)

/-- Python `urllib.parse.urlparse(url).path`: the path component of a
URL — after `scheme://host` when a scheme is present, stopping before
the query or fragment. -/
def urlPath (url : String) : String :=
  let l := url.toList
  let pathish : List Char :=
    match findMarker ("://".toList) l with
    | none => l
    | some rest => rest.dropWhile (fun c => c ≠ '/')
  String.mk (pathish.takeWhile (fun c => c ≠ '?' ∧ c ≠ '#'))

/-- Python `os.path.splitext(p)[1]` applied to a path with no
directory part: the final extension including its dot, where leading
dots of the name do not begin an extension. -/
def lastExt (l : List Char) : List Char :=
  let body := l.dropWhile (fun c => c = '.')
  let revTail := body.reverse.takeWhile (fun c => c ≠ '.')
  if revTail.length = body.length then [] else '.' :: revTail.reverse

/-- Extension chosen for a downloaded image in `download_image_api`:
`os.path.splitext(urlparse(url).path)[1]`, defaulting to `".png"` when
empty (app.py:368-370). -/
def imageExt (url : String) : String :=
  let e := lastExt ((basename (urlPath url)).toList)
  if e = [] then ".png" else String.mk e

/-- Sentence sanitisation in `download_image_api` (app.py:364-366):
`re.sub(r'[^\w\s-]', '', sentence).strip().replace(' ', '_')`, then
truncation of names longer than 50 characters with a trailing `"..."`
after stripping `_`. -/
def sanitize_sentence (sentence : String) : String :=
  let s1 := sentence.toList.filter
    (fun c => c.isAlphanum ∨ c = '_' ∨ c.isWhitespace ∨ c = '-')
  let s2 := stripChars s1
  let s3 := s2.map (fun c => if c = ' ' then '_' else c)
  if s3.length > 50 then
    String.mk (((s3.take 50).reverse.dropWhile (fun c => c = '_')).reverse) ++ "..."
  else String.mk s3

/-- Collision-avoidance loop of `download_image_api` (app.py:376-380):
try `base ++ ext`, then `base_1 ++ ext`, `base_2 ++ ext`, … until the
path `downloads/<name>` does not yet exist.  `fuel` bounds the search;
the caller passes one more than the number of existing files, which
always suffices since each step excludes one distinct existing path. -/
def uniqueNameGo (files : List String) (base ext : String) : ℕ → ℕ → String
  | counter, 0 => base ++ "_" ++ toString counter ++ ext
  | counter, fuel + 1 =>
    let fname := base ++ "_" ++ toString counter ++ ext
    if ("downloads/" ++ fname) ∈ files then
      uniqueNameGo files base ext (counter + 1) fuel
    else fname

/-- First filename of the form `base ++ ext`, `base_k ++ ext` whose
path in the download directory is not among `files`. -/
def uniqueName (files : List String) (base ext : String) : String :=
  let fname := base ++ ext
  if ("downloads/" ++ fname) ∈ files then
    uniqueNameGo files base ext 1 (files.length + 1)
  else fname

/-- One transcription segment as indexed by
`load_transcription_data_web` (app.py:70-86). -/
structure Segment where
  sentence : String
  start_seconds : ℚ
  end_seconds : ℚ
  duration_seconds : ℚ
deriving DecidableEq, Repr

/-- One raw record of the input transcription document's `segments`
list; every field is optional, mirroring the `.get` defaults in the
loader. `stop` renders the Python key `end`. -/
structure RawSegment where
  id : Option ℤ
  text : Option String
  start : Option ℚ
  stop : Option ℚ
deriving DecidableEq, Repr

/-- One clip entry of the composition document.  `track` and
`linked_transcript_index` are optional because the allocator reads
them with `.get` defaults; `channel_name` renders the Python key
`channel-name` written by the YouTube path. -/
structure Clip where
  filename : String
  start : ℤ
  duration : ℤ
  source_url : String
  linked_transcript_index : Option ℤ
  track : Option ℤ
  channel_name : Option String
deriving DecidableEq, Repr

/-- The `sequence` object of the composition document.  `timebase` is
optional because `initialize_data` reads it with
`.get("timebase", None)`; the remaining fields are always present in
documents this code writes. -/
structure Sequence where
  name : String
  timebase : Option ℤ
  ntsc : Bool
  width : ℤ
  height : ℤ
  clips : List Clip
deriving DecidableEq, Repr

/-- The whole composition document: a dict that may or may not carry a
`sequence` key (`update_composition_json_data` and `set_fps` both test
for it). -/
structure CompositionData where
  sequence : Option Sequence
deriving DecidableEq, Repr

/-- The `sequence` part of `get_initial_composition_data`
(app.py:113-124). -/
def initial_sequence : Sequence :=
  { name := "New Video Composition"
  , timebase := some 30
  , ntsc := false
  , width := 1920
  , height := 1080
  , clips := [] }

/-- Default composition document (app.py:113-124). -/
def get_initial_composition_data : CompositionData :=
  { sequence := some initial_sequence }

/-- Observable side effects of an operation: which documents were
handed to `save_json_file`, which image payloads were written, which
URLs were fetched over the network. -/
inductive Event where
  | saveComposition
  | saveImageIndex
  | saveArchive
  | saveFrames
  | writePayload (path : String)
  | fetch (url : String)
deriving DecidableEq, Repr

/-- Process-wide mutable state of the Flask app: the four loaded data
stores, the fps value, and the set of files existing in the download
directory (consulted by the collision-avoidance loop). -/
structure AppState where
  transcription : List (String × Segment)
  imageDownloads : List (String × String)
  composition : CompositionData
  videoFps : Option ℚ
  files : List String
deriving DecidableEq, Repr

/-- Clip list of a composition document, `[]` when the `sequence` key
is absent. -/
def clipsOf (comp : CompositionData) : List Clip :=
  match comp.sequence with
  | some s => s.clips
  | none => []

/-- Track values, in list order, of the clips linked to transcript
index `i` (each read with the allocator's `.get('track', -1)`
default). -/
def tracksFor (i : ℤ) (clips : List Clip) : List ℤ :=
  (clips.filter (fun c => c.linked_transcript_index = some i)).map
    (fun c => c.track.getD (-1))

/-- Track allocator `_get_next_available_track` (app.py:126-137): one
plus the maximum `track` among clips whose `linked_transcript_index`
matches, starting the maximum at `-1`. -/
def _get_next_available_track (i : ℤ) (comp : CompositionData) : ℤ :=
  (match comp.sequence with
   | none => (-1 : ℤ)
   | some s =>
     s.clips.foldl
       (fun m c =>
         if c.linked_transcript_index = some i then max m (c.track.getD (-1)) else m)
       (-1)) + 1

/-- The sequence a composition is normalised to before an append: the
existing one, or the default when the `sequence` key is absent
(app.py:144-149; the typed model keeps `clips` a list, which is what
the `isinstance` guard re-establishes). -/
def seqOf (comp : CompositionData) : Sequence :=
  match comp.sequence with
  | some s => s
  | none => initial_sequence

/-- `update_composition_json_data` (app.py:139-161): normalise the
document, assign the entry's track (next available for its linked
index, `0` as fallback when the index is missing), append, and persist
the whole document; `diskOk` is the Boolean `save_json_file` returns
and is passed through as the function's result. -/
def update_composition_json_data (entry : Clip) (comp : CompositionData)
    (diskOk : Bool) : CompositionData × List Event × Bool :=
  let seq := seqOf comp
  let comp1 : CompositionData := { sequence := some seq }
  let entry1 : Clip :=
    match entry.linked_transcript_index with
    | some i => { entry with track := some (_get_next_available_track i comp1) }
    | none => { entry with track := some 0 }
  ({ sequence := some { seq with clips := seq.clips ++ [entry1] } },
   [Event.saveComposition], diskOk)

/-- The entry actually appended by `update_composition_json_data`
(statement-side abbreviation). -/
def assigned_entry (entry : Clip) (comp : CompositionData) : Clip :=
  match entry.linked_transcript_index with
  | some i =>
    { entry with track := some (_get_next_available_track i { sequence := some (seqOf comp) }) }
  | none => { entry with track := some 0 }

/-- A sequence of timeline appends through
`update_composition_json_data` (each append returns the new document;
the save result is irrelevant to the in-memory document). -/
def applyAppends (es : List Clip) (comp : CompositionData) : CompositionData :=
  es.foldl (fun c e => (update_composition_json_data e c true).1) comp

/-- The inline seconds-to-frames conversion shared verbatim by
`download_youtube_api` (app.py:310-312) and
`_add_image_to_composition` (app.py:409-411):
`start_frame = int(round(start_seconds * video_fps)) if video_fps is
not None else 0`, likewise for `end_frame`, and
`duration_frames = int(round(end_frame - start_frame))` — the
difference of the rounded boundaries (`round` of an integer is that
integer). -/
def clip_frames (fps : Option ℚ) (start_seconds end_seconds : ℚ) : ℤ × ℤ :=
  let start_frame : ℤ :=
    match fps with
    | some f => pyRound (start_seconds * f)
    | none => 0
  let end_frame : ℤ :=
    match fps with
    | some f => pyRound (end_seconds * f)
    | none => 0
  (start_frame, pyRound ((end_frame - start_frame : ℤ) : ℚ))

/-- `_add_image_to_composition` (app.py:405-420): convert the segment
window to frames under the current fps, build the clip entry and
append it through `update_composition_json_data`, returning that
function's result (the save Boolean). -/
def _add_image_to_composition (filename original_url : String)
    (start_seconds end_seconds : ℚ) (linked_transcript_index : ℤ)
    (fps : Option ℚ) (comp : CompositionData) (diskOk : Bool) :
    CompositionData × List Event × Bool :=
  let frames := clip_frames fps start_seconds end_seconds
  let image_clip_entry : Clip :=
    { filename := filename
    , start := frames.1
    , duration := frames.2
    , source_url := original_url
    , linked_transcript_index := some linked_transcript_index
    , track := none
    , channel_name := none }
  update_composition_json_data image_clip_entry comp diskOk

/-- Fps field of a `set_fps` request body: absent, a JSON string, or a
JSON number. -/
inductive FpsInput where
  | missing
  | str (s : String)
  | num (q : ℚ)
deriving DecidableEq, Repr

/-- Python `float(x)` applied to the request's fps field: numbers pass
through, strings are parsed, failure raises `ValueError` (`none`). -/
def pyFloatOf : FpsInput → Option ℚ
  | FpsInput.missing => none
  | FpsInput.str s => parsePyFloat s
  | FpsInput.num q => some q

/-- The distinct return points of `set_fps` (app.py:450-468). -/
inductive SetFpsResult where
  | fpsNotProvided
  | invalidValue
  | success (fps : ℚ)
deriving DecidableEq, Repr

/-- `set_fps` (app.py:450-468): reject a missing field; coerce with
`float` and reject `ValueError`; otherwise store the float in
`video_fps`, and when the composition has a `sequence` key set its
`timebase` to `int(round(fps))` and persist the document.  The save
result is never inspected: the endpoint reports success regardless of
`diskOk`. -/
def set_fps (input : FpsInput) (st : AppState) (diskOk : Bool) :
    AppState × List Event × SetFpsResult :=
  match input with
  | FpsInput.missing => (st, [], SetFpsResult.fpsNotProvided)
  | _ =>
    match pyFloatOf input with
    | none => (st, [], SetFpsResult.invalidValue)
    | some fps =>
      let st1 := { st with videoFps := some fps }
      match st1.composition.sequence with
      | some seq =>
        let comp1 : CompositionData :=
          { sequence := some { seq with timebase := some (pyRound fps) } }
        ({ st1 with composition := comp1 },
         [Event.saveComposition], SetFpsResult.success fps)
      | none => (st1, [], SetFpsResult.success fps)

/-- One segment of the frame-based export: a copy of the segment plus
the three frame fields computed in `generate_frame_based_json_api`
(app.py:483-491). -/
structure FrameSegment where
  sentence : String
  start_seconds : ℚ
  end_seconds : ℚ
  duration_seconds : ℚ
  start_frame : ℤ
  end_frame : ℤ
  duration_frames : ℤ
deriving DecidableEq, Repr

/-- Per-segment body of the export loop (app.py:483-491):
`start_frame = int(round(start_seconds * video_fps))`,
`end_frame = int(round(end_seconds * video_fps))`,
`duration_frames = int(round(duration_seconds * video_fps))`. -/
def frameSegmentOf (fps : ℚ) (seg : Segment) : FrameSegment :=
  { sentence := seg.sentence
  , start_seconds := seg.start_seconds
  , end_seconds := seg.end_seconds
  , duration_seconds := seg.duration_seconds
  , start_frame := pyRound (seg.start_seconds * fps)
  , end_frame := pyRound (seg.end_seconds * fps)
  , duration_frames := pyRound (seg.duration_seconds * fps) }

/-- The document written to `transcription_frames.json`: the mirrored
segments plus the `_metadata` fps snapshot. -/
structure FrameDoc where
  segments : List (String × FrameSegment)
  video_fps : ℚ
deriving DecidableEq, Repr

/-- The distinct return points of `generate_frame_based_json_api`
(app.py:470-498). -/
inductive GenResult where
  | fpsNotSet
  | noTranscription
  | saved
  | saveFailed
deriving DecidableEq, Repr

/-- `generate_frame_based_json_api` (app.py:470-498): fail when
`video_fps` is `None`, fail when the transcription store is empty,
otherwise build the frame-based document and persist it, reporting the
save result.  The second component is the document built (meaningful
on the last two outcomes). -/
def generate_frame_based_json_api (fps : Option ℚ)
    (transcription : List (String × Segment)) (diskOk : Bool) :
    GenResult × FrameDoc × List Event :=
  match fps with
  | none => (GenResult.fpsNotSet, { segments := [], video_fps := 0 }, [])
  | some f =>
    if transcription = [] then
      (GenResult.noTranscription, { segments := [], video_fps := f }, [])
    else
      let doc : FrameDoc :=
        { segments := transcription.map (fun kv => (kv.1, frameSegmentOf f kv.2))
        , video_fps := f }
      if diskOk then (GenResult.saved, doc, [Event.saveFrames])
      else (GenResult.saveFailed, doc, [Event.saveFrames])

/-- The distinct return points of `archive_storyblocks_link`
(app.py:423-448). -/
inductive ArchResult where
  | missingParams
  | archived
  | saveFailed
deriving DecidableEq, Repr

/-- The archive document: transcript index (as string key) to the list
of `{url, timestamp}` records. -/
def ArchiveData : Type := List (String × List (String × String))

/-- `archive_storyblocks_link` (app.py:423-448): reject empty
parameters; append `{url, timestamp}` under the index key (creating
it when absent) in the freshly loaded archive document; persist and —
unlike the other write paths — report the save result to the caller
(`now` stands for `datetime.now().isoformat()`). -/
def archive_storyblocks_link (url currentIndex : String)
    (archive : ArchiveData) (now : String) (diskOk : Bool) :
    ArchiveData × List Event × ArchResult :=
  if url = "" ∨ currentIndex = "" then (archive, [], ArchResult.missingParams)
  else
    let cur := (lookupAssoc archive currentIndex).getD []
    let archive1 := setKeyAssoc archive currentIndex (cur ++ [(url, now)])
    if diskOk then (archive1, [Event.saveArchive], ArchResult.archived)
    else (archive1, [Event.saveArchive], ArchResult.saveFailed)

/-- Start and end seconds that an append reads for a transcript index:
`transcription_data.get(current_index, {})` with `0.0` defaults
(app.py:351-353, 359-362). -/
def segStartEnd (transcription : List (String × Segment)) (key : String) : ℚ × ℚ :=
  match lookupAssoc transcription key with
  | some seg => (seg.start_seconds, seg.end_seconds)
  | none => (0, 0)

/-- The distinct return points of `download_image_api`
(app.py:332-403).  `uncaughtError` is the server error Flask produces
when `int(current_index)` raises outside the `try` block. -/
inductive DlImageResult where
  | missingParams
  | alreadyDownloaded (filename : String)
  | downloaded (filename : String)
  | networkError
  | otherError
  | uncaughtError
deriving DecidableEq, Repr

/-- `download_image_api` (app.py:332-403).  On a dedup hit the
recorded path's basename is reused and only the composition append
runs; on a miss the image is fetched (`fetchOk` is the success of the
`requests.get`), the payload written under a collision-free name, the
URL recorded in the download index and that index persisted (result
ignored), and the composition appended (result ignored).  Every
outcome reports success to the caller except a fetch failure or an
exception. -/
def download_image_api (url currentIndex : String) (fetchOk : Bool)
    (imgIdxOk compOk : Bool) (st : AppState) :
    AppState × List Event × DlImageResult :=
  if url = "" ∨ currentIndex = "" then (st, [], DlImageResult.missingParams)
  else
    match lookupAssoc st.imageDownloads url with
    | some existingPath =>
      match parsePyInt currentIndex with
      | none => (st, [], DlImageResult.uncaughtError)
      | some idx =>
        let filename := basename existingPath
        let se := segStartEnd st.transcription currentIndex
        let r := _add_image_to_composition filename url se.1 se.2 idx
          st.videoFps st.composition compOk
        ({ st with composition := r.1 }, r.2.1,
         DlImageResult.alreadyDownloaded filename)
    | none =>
      let sentence :=
        match lookupAssoc st.transcription currentIndex with
        | some seg => seg.sentence
        | none => "untitled_segment"
      let se := segStartEnd st.transcription currentIndex
      let base := currentIndex ++ "_" ++ sanitize_sentence sentence
      let fname := uniqueName st.files base (imageExt url)
      let path := "downloads/" ++ fname
      if fetchOk then
        let st1 := { st with
          files := st.files ++ [path]
          , imageDownloads := setKeyAssoc st.imageDownloads url path }
        let preEvents := [Event.fetch url, Event.writePayload path,
          Event.saveImageIndex]
        match parsePyInt currentIndex with
        | none => (st1, preEvents, DlImageResult.otherError)
        | some idx =>
          let r := _add_image_to_composition (basename path) url se.1 se.2 idx
            st.videoFps st.composition compOk
          ({ st1 with composition := r.1 }, preEvents ++ r.2.1,
           DlImageResult.downloaded (basename path))
      else (st, [Event.fetch url], DlImageResult.networkError)

/-- Outcome of the `youtube_downloader.py` subprocess as
`download_youtube_api` sees it: the captured stdout on a zero exit, or
one of the exception paths. -/
inductive YtProc where
  | ok (stdout : String)
  | calledProcessError
  | exn
deriving DecidableEq, Repr

/-- The distinct return points of `download_youtube_api`
(app.py:282-330). -/
inductive YtResult where
  | noId
  | success (filename : String)
  | scriptFailed
  | processError
  | otherError
deriving DecidableEq, Repr

/-- Python `process.stdout.split("DOWNLOAD_SUCCESS:")[1].strip()`
guarded by the `in` test (app.py:301-302): the text between the first
marker and the next, stripped. -/
def parseDownloadSuccess (stdout : String) : Option String :=
  (pySplitSecond ("DOWNLOAD_SUCCESS:".toList) stdout.toList).map
    (fun l => String.mk (stripChars l))

/-- `download_youtube_api` (app.py:282-330): reject a missing id; on a
successful subprocess whose stdout carries the success marker, build
the clip entry from the segment window under the current fps and
append it through `update_composition_json_data` (save result
ignored — the endpoint reports success regardless of `compOk`); all
other outcomes are errors.  A non-integer `currentIndex` raises inside
the `try` and lands in the generic handler. -/
def download_youtube_api (youtube_id currentIndex uploader : String)
    (proc : YtProc) (st : AppState) (compOk : Bool) :
    AppState × List Event × YtResult :=
  if youtube_id = "" then (st, [], YtResult.noId)
  else
    match proc with
    | YtProc.calledProcessError => (st, [], YtResult.processError)
    | YtProc.exn => (st, [], YtResult.otherError)
    | YtProc.ok stdout =>
      match parseDownloadSuccess stdout with
      | none => (st, [], YtResult.scriptFailed)
      | some downloadedPath =>
        let filename := basename downloadedPath
        let se := segStartEnd st.transcription currentIndex
        match parsePyInt currentIndex with
        | none => (st, [], YtResult.otherError)
        | some idx =>
          let frames := clip_frames st.videoFps se.1 se.2
          let clip_entry : Clip :=
            { filename := filename
            , start := frames.1
            , duration := frames.2
            , source_url := "https://www.youtube.com/watch?v=" ++ youtube_id
            , linked_transcript_index := some idx
            , track := none
            , channel_name := some uploader }
          let r := update_composition_json_data clip_entry st.composition compOk
          ({ st with composition := r.1 }, r.2.1, YtResult.success filename)

/-- `load_transcription_data_web` (app.py:70-86): index the raw
`segments` list by `str(segment.get('id', i))`, reading each record's
fields with defaults and deriving
`duration_seconds = end - start`; a missing or malformed document (no
`segments` key) yields the empty store. -/
def load_transcription_data_web (segments : Option (List RawSegment)) :
    List (String × Segment) :=
  match segments with
  | none => []
  | some segs =>
    segs.enum.map (fun p =>
      (toString (p.2.id.getD (p.1 : ℤ)),
       { sentence := p.2.text.getD ""
       , start_seconds := p.2.start.getD 0
       , end_seconds := p.2.stop.getD 0
       , duration_seconds := p.2.stop.getD 0 - p.2.start.getD 0 }))

/-- Startup `initialize_data` (app.py:185-192): load the stores (each
parameter is the parsed file, `none` when missing/unreadable), default
the composition to `get_initial_composition_data`, and seed
`video_fps` from
`composition_data.get("sequence", {}).get("timebase", None)`. -/
def init_data (segments : Option (List RawSegment))
    (imageIdx : Option (List (String × String)))
    (compositionFile : Option CompositionData)
    (files : List String) : AppState :=
  let comp := compositionFile.getD get_initial_composition_data
  { transcription := load_transcription_data_web segments
  , imageDownloads := imageIdx.getD []
  , composition := comp
  , videoFps :=
      (match comp.sequence with
       | some s => s.timebase
       | none => none).map (fun t => (t : ℚ))
  , files := files }

/-- The compactness invariant of track assignment: for every linked
index, the tracks in clip order form an initial range `0, 1, 2, …`. -/
def compactInv (comp : CompositionData) : Prop :=
  ∀ j : ℤ, tracksFor j (clipsOf comp) = rangeZ (tracksFor j (clipsOf comp)).length

/-- Concrete composition used to exercise the allocator: two clips on
index 0 (tracks 0 and 1) and one malformed clip with no linked
index. -/
def exComp3 : CompositionData :=
  { sequence := some { initial_sequence with clips :=
      [ { filename := "a.png", start := 0, duration := 1, source_url := "u1"
        , linked_transcript_index := some 0, track := some 0, channel_name := none }
      , { filename := "b.png", start := 0, duration := 1, source_url := "u2"
        , linked_transcript_index := some 0, track := some 1, channel_name := none }
      , { filename := "c.png", start := 0, duration := 1, source_url := "u3"
        , linked_transcript_index := none, track := some 5, channel_name := none } ] } }

/-- A clip entry without a linked transcript index, as a malformed
caller would submit it. -/
def exOrphanClip : Clip :=
  { filename := "d.png", start := 0, duration := 1, source_url := "u4"
  , linked_transcript_index := none, track := none, channel_name := none }

/-- Raw transcription record exhibiting the rounding asymmetry:
start 0.26, end 0.74 (so the derived duration is 0.48); at fps 5 the
boundaries round to 1 and 4 but the span rounds to 2. -/
def c1RawSegment : RawSegment :=
  { id := none, text := some "t", start := some (13/50), stop := some (37/50) }

/-- A raw transcription record with a trivial time window, enough for
the export to have a segment to mirror. -/
def c6RawSegment : RawSegment :=
  { id := none, text := some "s", start := some 0, stop := some 0 }

/-- The process state right after a fresh startup: empty stores, the
default composition document (whose timebase is 30), fps not yet
touched by any request. -/
def stdState : AppState :=
  { transcription := []
  , imageDownloads := []
  , composition := get_initial_composition_data
  , videoFps := none
  , files := [] }

/-- A state whose download index already records one image URL (a
dedup hit for that URL). -/
def hitState : AppState :=
  { transcription := []
  , imageDownloads := [("http://e/a.png", "downloads/a.png")]
  , composition := get_initial_composition_data
  , videoFps := none
  , files := ["downloads/a.png"] }

/-- A state whose download index is empty (a dedup miss for any
URL). -/
def missState : AppState :=
  { transcription := []
  , imageDownloads := []
  , composition := get_initial_composition_data
  , videoFps := none
  , files := [] }

/-- Whether an event is an image-payload write to the download
directory. -/
def isPayloadWrite : Event → Bool
  | Event.writePayload _ => true
  | _ => false

/-- Whether an event is a network fetch. -/
def isFetch : Event → Bool
  | Event.fetch _ => true
  | _ => false

theorem pyRound_eq_of_lt_half (q : ℚ) (n : ℤ) (h1 : (n : ℚ) ≤ q)
    (h2 : q < (n : ℚ) + 1/2) : pyRound q = n := by
  have hf : ⌊q⌋ = n := by
    rw [Int.floor_eq_iff]
    constructor
    · exact h1
    · push_cast
      linarith
  simp only [pyRound, hf]
  have : q - (n : ℚ) < 1/2 := by linarith
  rw [if_pos this]

theorem pyRound_eq_of_gt_half (q : ℚ) (n : ℤ) (h1 : (n : ℚ) + 1/2 < q)
    (h2 : q < (n : ℚ) + 1) : pyRound q = n + 1 := by
  have hf : ⌊q⌋ = n := by
    rw [Int.floor_eq_iff]
    constructor
    · linarith
    · push_cast
      linarith
  simp only [pyRound, hf]
  have hlt : ¬ (q - (n : ℚ) < 1/2) := by
    push_neg
    linarith
  rw [if_neg hlt, if_pos (by linarith : (1:ℚ)/2 < q - (n : ℚ))]

theorem pyRound_intCast (n : ℤ) : pyRound ((n : ℤ) : ℚ) = n := by
  apply pyRound_eq_of_lt_half
  · exact le_refl _
  · linarith

theorem pyRound_eq_intCast (q : ℚ) (n : ℤ) (h : q = (n : ℚ)) : pyRound q = n := by
  rw [h]
  exact pyRound_intCast n

theorem rangeZ_zero : rangeZ 0 = [] := rfl

theorem rangeZ_succ (n : ℕ) : rangeZ (n + 1) = rangeZ n ++ [(n : ℤ)] := by
  simp [rangeZ, List.range_succ]

theorem rangeZ_length (n : ℕ) : (rangeZ n).length = n := by
  induction n with
  | zero => rfl
  | succ n ih =>
    rw [rangeZ_succ]
    simp [ih]

theorem foldl_max_rangeZ (n : ℕ) : (rangeZ n).foldl max (-1 : ℤ) = (n : ℤ) - 1 := by
  induction n with
  | zero => simp [rangeZ_zero]
  | succ n ih =>
    rw [rangeZ_succ, List.foldl_append, ih]
    simp only [List.foldl_cons, List.foldl_nil]
    rw [max_eq_right (by omega : (n : ℤ) - 1 ≤ (n : ℤ))]
    push_cast
    ring

theorem tracksFor_append_one (i : ℤ) (l : List Clip) (c : Clip) :
    tracksFor i (l ++ [c]) = tracksFor i l ++
      (if c.linked_transcript_index = some i then [c.track.getD (-1)] else []) := by
  by_cases h : c.linked_transcript_index = some i
  · simp [tracksFor, List.filter_append, h]
  · simp [tracksFor, List.filter_append, h]

theorem foldl_track_filter (i : ℤ) (l : List Clip) : ∀ a : ℤ,
    l.foldl (fun m c =>
      if c.linked_transcript_index = some i then max m (c.track.getD (-1)) else m) a
      = (tracksFor i l).foldl max a := by
  induction l with
  | nil => intro a; simp [tracksFor]
  | cons c l ih =>
    intro a
    by_cases h : c.linked_transcript_index = some i
    · simp [tracksFor, List.filter_cons, h, List.foldl_cons, ih]
    · simp [tracksFor, List.filter_cons, h, List.foldl_cons, ih]

theorem next_track_eq (i : ℤ) (comp : CompositionData) :
    _get_next_available_track i comp = (tracksFor i (clipsOf comp)).foldl max (-1) + 1 := by
  match h : comp.sequence with
  | none => simp [_get_next_available_track, clipsOf, h, tracksFor]
  | some s => simp [_get_next_available_track, clipsOf, h, foldl_track_filter]

theorem seqOf_clips (comp : CompositionData) : (seqOf comp).clips = clipsOf comp := by
  match h : comp.sequence with
  | none => simp [seqOf, clipsOf, h, initial_sequence]
  | some s => simp [seqOf, clipsOf, h]

theorem next_track_norm (i : ℤ) (comp : CompositionData) :
    _get_next_available_track i { sequence := some (seqOf comp) }
      = _get_next_available_track i comp := by
  rw [next_track_eq, next_track_eq]
  have : clipsOf { sequence := some (seqOf comp) } = clipsOf comp := by
    simp [clipsOf, seqOf_clips comp]
  rw [this]

theorem update_fst (e : Clip) (comp : CompositionData) (d : Bool) :
    (update_composition_json_data e comp d).1
      = { sequence := some { seqOf comp with
            clips := (seqOf comp).clips ++ [assigned_entry e comp] } } := by
  match h : e.linked_transcript_index with
  | none => simp [update_composition_json_data, assigned_entry, h]
  | some i => simp [update_composition_json_data, assigned_entry, h]

theorem clipsOf_update (e : Clip) (comp : CompositionData) (d : Bool) :
    clipsOf (update_composition_json_data e comp d).1
      = clipsOf comp ++ [assigned_entry e comp] := by
  rw [update_fst]
  simp [clipsOf, seqOf_clips comp]

theorem assigned_entry_linked (e : Clip) (comp : CompositionData) :
    (assigned_entry e comp).linked_transcript_index = e.linked_transcript_index := by
  match h : e.linked_transcript_index with
  | none => simp [assigned_entry, h]
  | some i => simp [assigned_entry, h]

theorem next_track_of_range (i : ℤ) (comp : CompositionData) (n : ℕ)
    (h : tracksFor i (clipsOf comp) = rangeZ n) :
    _get_next_available_track i comp = n := by
  rw [next_track_eq, h, foldl_max_rangeZ]
  omega

theorem update_tracks (e : Clip) (comp : CompositionData) (d : Bool)
    (h : compactInv comp) (j : ℤ) :
    tracksFor j (clipsOf (update_composition_json_data e comp d).1)
      = rangeZ ((tracksFor j (clipsOf comp)).length +
          (if e.linked_transcript_index = some j then 1 else 0)) := by
  rw [clipsOf_update, tracksFor_append_one, assigned_entry_linked]
  match he : e.linked_transcript_index with
  | none =>
    simp only [reduceCtorEq, if_false, List.append_nil, Nat.add_zero]
    exact h j
  | some i =>
    by_cases hij : i = j
    · subst hij
      rw [if_pos rfl, if_pos rfl]
      obtain ⟨n, hn⟩ : ∃ n, tracksFor i (clipsOf comp) = rangeZ n :=
        ⟨_, h i⟩
      have hlen : (tracksFor i (clipsOf comp)).length = n := by
        rw [hn, rangeZ_length]
      have htr : (assigned_entry e comp).track
          = some (_get_next_available_track i { sequence := some (seqOf comp) }) := by
        simp [assigned_entry, he]
      rw [htr]
      have hnext : _get_next_available_track i { sequence := some (seqOf comp) }
          = (n : ℤ) := by
        rw [next_track_norm]
        exact next_track_of_range i comp n hn
      simp only [Option.getD_some, hnext]
      rw [hlen, hn, ← rangeZ_succ]
    · have hne : ¬ (some i = some j) := by
        simp [hij]
      simp only [hne, if_false, List.append_nil, Nat.add_zero]
      exact h j

theorem update_compactInv (e : Clip) (comp : CompositionData) (d : Bool)
    (h : compactInv comp) : compactInv (update_composition_json_data e comp d).1 := by
  intro j
  rw [update_tracks e comp d h j, rangeZ_length]

theorem applyAppends_cons (e : Clip) (es : List Clip) (comp : CompositionData) :
    applyAppends (e :: es) comp
      = applyAppends es (update_composition_json_data e comp true).1 := by
  simp [applyAppends]

theorem applyAppends_tracks (es : List Clip) : ∀ comp : CompositionData,
    compactInv comp → ∀ i : ℤ,
    tracksFor i (clipsOf (applyAppends es comp))
      = rangeZ ((tracksFor i (clipsOf comp)).length +
          (es.filter (fun e => e.linked_transcript_index = some i)).length) := by
  induction es with
  | nil =>
    intro comp h i
    simp only [applyAppends, List.foldl_nil, List.filter_nil, List.length_nil,
      Nat.add_zero]
    exact h i
  | cons e es ih =>
    intro comp h i
    rw [applyAppends_cons]
    rw [ih _ (update_compactInv e comp true h) i]
    rw [update_tracks e comp true h i, rangeZ_length]
    by_cases he : e.linked_transcript_index = some i
    · rw [if_pos he, List.filter_cons_of_pos (by simp [he]), List.length_cons]
      congr 1
      omega
    · rw [if_neg he, List.filter_cons_of_neg (by simp [he])]
      congr 1

/-- C2: starting from the empty default composition, for every append
sequence and every linked transcript index `i`, the tracks assigned to
the clips linked to `i` are, in append order, exactly
`0, 1, …, N-1` where `N` is the number of appends for `i` — no gaps
and no duplicates, regardless of interleaving with appends for other
indices (clips for different indices may repeat the same numbers). -/
theorem track_assignment_compact (es : List Clip) (i : ℤ) :
    tracksFor i (clipsOf (applyAppends es get_initial_composition_data))
      = rangeZ ((es.filter
          (fun e => e.linked_transcript_index = some i)).length) := by
  have hinv : compactInv get_initial_composition_data := by
    intro j
    simp [compactInv, clipsOf, get_initial_composition_data, initial_sequence,
      tracksFor, rangeZ]
  rw [applyAppends_tracks es get_initial_composition_data hinv i]
  have : tracksFor i (clipsOf get_initial_composition_data) = [] := by
    simp [clipsOf, get_initial_composition_data, initial_sequence, tracksFor]
  rw [this]
  simp

theorem le_foldl_max_init (l : List ℤ) : ∀ a : ℤ, a ≤ l.foldl max a := by
  induction l with
  | nil => intro a; simp
  | cons c l ih =>
    intro a
    simp only [List.foldl_cons]
    exact le_trans (le_max_left a c) (ih (max a c))

theorem le_foldl_max_mem (l : List ℤ) : ∀ a x : ℤ, x ∈ l → x ≤ l.foldl max a := by
  induction l with
  | nil =>
    intro a x hx
    cases hx
  | cons c l ih =>
    intro a x hx
    simp only [List.foldl_cons]
    rcases List.mem_cons.mp hx with h | h
    · subst h
      exact le_trans (le_max_right a x) (le_foldl_max_init l (max a x))
    · exact ih (max a c) x h

theorem foldl_max_le (l : List ℤ) : ∀ a m : ℤ, a ≤ m → (∀ x ∈ l, x ≤ m) →
    l.foldl max a ≤ m := by
  induction l with
  | nil =>
    intro a m ha _
    simpa using ha
  | cons c l ih =>
    intro a m ha hl
    simp only [List.foldl_cons]
    exact ih (max a c) m (max_le ha (hl c (List.mem_cons_self c l)))
      (fun x hx => hl x (List.mem_cons_of_mem c hx))

/-- C3: the allocator is a pure function of the composition snapshot —
its result is determined by the tracks of the clips linked to the
queried index alone (first conjunct); it returns `0` when no clip is
linked to the index; it returns one plus the maximum track value among
the linked clips whenever such a maximum exists (tracks are `≥ 0` per
the data model); and an entry without a linked index is itself
assigned track `0` on append without disturbing any index's tracks. -/
theorem next_track_spec (i : ℤ) (comp : CompositionData) :
    _get_next_available_track i comp
        = (tracksFor i (clipsOf comp)).foldl max (-1) + 1
    ∧ (tracksFor i (clipsOf comp) = [] → _get_next_available_track i comp = 0)
    ∧ (∀ m : ℤ, 0 ≤ m → m ∈ tracksFor i (clipsOf comp) →
        (∀ x ∈ tracksFor i (clipsOf comp), x ≤ m) →
        _get_next_available_track i comp = m + 1)
    ∧ (∀ (e : Clip) (d : Bool), e.linked_transcript_index = none →
        clipsOf (update_composition_json_data e comp d).1
            = clipsOf comp ++ [{ e with track := some 0 }]
        ∧ ∀ j : ℤ, tracksFor j (clipsOf (update_composition_json_data e comp d).1)
            = tracksFor j (clipsOf comp)) := by
  refine ⟨next_track_eq i comp, ?_, ?_, ?_⟩
  · intro h
    rw [next_track_eq, h]
    rfl
  · intro m hm hmem hbound
    rw [next_track_eq]
    have hle : (tracksFor i (clipsOf comp)).foldl max (-1) ≤ m :=
      foldl_max_le _ (-1) m (by omega) hbound
    have hge : m ≤ (tracksFor i (clipsOf comp)).foldl max (-1) :=
      le_foldl_max_mem _ (-1) m hmem
    omega
  · intro e d he
    have hassigned : assigned_entry e comp = { e with track := some 0 } := by
      simp [assigned_entry, he]
    constructor
    · rw [clipsOf_update, hassigned]
    · intro j
      rw [clipsOf_update, hassigned, tracksFor_append_one]
      have : ({ e with track := some 0 } : Clip).linked_transcript_index = none := by
        simp [he]
      rw [this]
      simp

/-- Witness for `next_track_spec` on `exComp3`: the allocator returns
`2` for index 0 (max existing track 1), `0` for the unused index 7,
and an orphan entry is appended with track 0. -/
theorem next_track_spec_witness :
    _get_next_available_track 0 exComp3 = 1 + 1
    ∧ _get_next_available_track 7 exComp3 = 0
    ∧ clipsOf (update_composition_json_data exOrphanClip exComp3 true).1
        = clipsOf exComp3 ++ [{ exOrphanClip with track := some 0 }] := by
  refine ⟨?_, ?_, ?_⟩
  · exact (next_track_spec 0 exComp3).2.2.1 1 (by decide) (by decide) (by decide)
  · exact (next_track_spec 7 exComp3).2.1 (by decide)
  · exact ((next_track_spec 7 exComp3).2.2.2 exOrphanClip true (by decide)).1

/-- C1 amended: the frame-based export computes
`start_frame = round(start_seconds * fps)` and
`end_frame = round(end_seconds * fps)`, but
`duration_frames = round(duration_seconds * fps)` — rounding applied
to the span, not the difference of the rounded boundaries, so the
exported duration can differ from `end_frame - start_frame`.  The
boundary-difference rule holds in the clip-append conversion
(`clip_frames`) instead. -/
theorem frame_export_rounds_span (f : ℚ) (tr : List (String × Segment)) (d : Bool) :
    (generate_frame_based_json_api (some f) tr d).2.1.segments
        = tr.map (fun kv => (kv.1, frameSegmentOf f kv.2))
    ∧ (∀ seg : Segment,
        (frameSegmentOf f seg).start_frame = pyRound (seg.start_seconds * f)
        ∧ (frameSegmentOf f seg).end_frame = pyRound (seg.end_seconds * f)
        ∧ (frameSegmentOf f seg).duration_frames
            = pyRound (seg.duration_seconds * f))
    ∧ (∀ s e : ℚ, clip_frames (some f) s e
        = (pyRound (s * f), pyRound (e * f) - pyRound (s * f))) := by
  refine ⟨?_, ?_, ?_⟩
  · by_cases h : tr = []
    · subst h
      cases d <;> simp [generate_frame_based_json_api]
    · cases d <;> simp [generate_frame_based_json_api, h]
  · intro seg
    exact ⟨rfl, rfl, rfl⟩
  · intro s e
    have hcast : pyRound ((pyRound (e * f) : ℚ) - (pyRound (s * f) : ℚ))
        = pyRound (e * f) - pyRound (s * f) :=
      pyRound_eq_intCast _ _ (by push_cast; ring)
    simp [clip_frames, hcast]

/-- Counterexample to C1 as stated: at fps 5 on the segment
`[0.26, 0.74]`, the export's `duration_frames` is `2`
(`round(0.48 * 5)`), while `end_frame - start_frame` is
`4 - 1 = 3` — the exported duration does not equal the difference of
the rounded boundaries. -/
theorem frame_export_span_counterexample :
    ((generate_frame_based_json_api (some 5)
        (load_transcription_data_web (some [c1RawSegment])) true).2.1.segments).map
        (fun kv => (kv.2.duration_frames, kv.2.end_frame - kv.2.start_frame))
      = [(2, 3)]
    ∧ (2 : ℤ) ≠ 3 := by
  constructor
  · have h1 : pyRound ((13/50 : ℚ) * 5) = 1 := by
      apply pyRound_eq_of_lt_half _ 1 <;> norm_num
    have h2 : pyRound ((37/50 : ℚ) * 5) = 3 + 1 := by
      apply pyRound_eq_of_gt_half _ 3 <;> norm_num
    have h3 : pyRound (((37/50 : ℚ) - 13/50) * 5) = 2 := by
      apply pyRound_eq_of_lt_half _ 2 <;> norm_num
    simp [generate_frame_based_json_api, load_transcription_data_web, c1RawSegment,
      frameSegmentOf, h1, h2, h3]
  · decide

theorem clip_frames_boundary (f s e : ℚ) :
    clip_frames (some f) s e
      = (pyRound (s * f), pyRound (e * f) - pyRound (s * f)) := by
  have hcast : pyRound ((pyRound (e * f) : ℚ) - (pyRound (s * f) : ℚ))
      = pyRound (e * f) - pyRound (s * f) :=
    pyRound_eq_intCast _ _ (by push_cast; ring)
  simp [clip_frames, hcast]

theorem clip_frames_none (s e : ℚ) : clip_frames none s e = (0, 0) := by
  have h0 : pyRound ((0 : ℚ)) = 0 := pyRound_eq_intCast _ 0 (by norm_num)
  simp [clip_frames, h0]

/-- C7: at fps 30 the clip-append conversion maps the window
`[10.0, 12.5]` to `start_frame = 300` and `duration_frame = 75`
(since `end_frame = 375`), and `_add_image_to_composition` appends a
clip carrying exactly those values (track 0 on the fresh default
composition). -/
theorem clip_frames_scenario :
    clip_frames (some 30) 10 (25/2) = (300, 375 - 300)
    ∧ (clipsOf (_add_image_to_composition "img.png" "http://e/img.png" 10 (25/2) 3
          (some 30) get_initial_composition_data true).1).map
        (fun c => (c.start, c.duration, c.track))
      = [(300, 75, some 0)] := by
  have h1 : pyRound ((10 : ℚ) * 30) = 300 := pyRound_eq_intCast _ 300 (by norm_num)
  have h2 : pyRound ((25/2 : ℚ) * 30) = 375 := pyRound_eq_intCast _ 375 (by norm_num)
  have hcf : clip_frames (some 30) 10 (25/2) = (300, 375 - 300) := by
    rw [clip_frames_boundary, h1, h2]
  constructor
  · exact hcf
  · simp only [_add_image_to_composition, hcf]
    rw [clipsOf_update]
    simp [assigned_entry, clipsOf, get_initial_composition_data, initial_sequence,
      _get_next_available_track, seqOf]

/-- C8: with fps unset, the clip-append conversion yields `(0, 0)` as
a deliberate fallback rather than an error, and the append still
proceeds: `_add_image_to_composition` appends an entry carrying
start 0 and duration 0 for the requested filename, url and linked
index. -/
theorem clip_frames_unset_fps (s e : ℚ) (fn url : String) (idx : ℤ)
    (comp : CompositionData) (d : Bool) :
    clip_frames none s e = (0, 0)
    ∧ (clipsOf (_add_image_to_composition fn url s e idx none comp d).1).map
        (fun c => (c.filename, c.start, c.duration, c.source_url,
          c.linked_transcript_index))
      = (clipsOf comp).map
          (fun c => (c.filename, c.start, c.duration, c.source_url,
            c.linked_transcript_index))
        ++ [(fn, 0, 0, url, some idx)] := by
  refine ⟨clip_frames_none s e, ?_⟩
  simp only [_add_image_to_composition, clip_frames_none s e]
  rw [clipsOf_update]
  simp [assigned_entry]

/-- Counterexample to C5 as stated: `set_fps` called with `-1` is not
rejected — `float(-1)` succeeds, so the endpoint reports success,
mutates the in-memory fps to `-1`, sets the persisted timebase to `-1`
and attempts the persistence write (the code has no positivity
check). -/
theorem set_fps_negative_accepted :
    (set_fps (FpsInput.num (-1)) stdState true).2.2 = SetFpsResult.success (-1)
    ∧ (set_fps (FpsInput.num (-1)) stdState true).1.videoFps = some (-1)
    ∧ (set_fps (FpsInput.num (-1)) stdState true).2.1 = [Event.saveComposition]
    ∧ (set_fps (FpsInput.num (-1)) stdState true).1.composition.sequence
        = some { initial_sequence with timebase := some (-1) } := by
  have hm1 : pyRound ((-1 : ℚ)) = -1 := pyRound_eq_intCast _ (-1) (by norm_num)
  refine ⟨?_, ?_, ?_, ?_⟩ <;>
    simp [set_fps, pyFloatOf, stdState, get_initial_composition_data,
      initial_sequence, hm1]

/-- C5 amended: `set_fps` with `"abc"` returns the invalid-input error
with no state mutated and no persistence write attempted; but
`set_fps` with `-1` is accepted — the fps becomes `-1`, the timebase
`-1` is persisted whenever the composition has a `sequence` key, and
success is reported.  Only non-parsing inputs are rejected; there is
no positivity validation. -/
theorem set_fps_validation (st : AppState) (d : Bool) :
    set_fps (FpsInput.str "abc") st d = (st, [], SetFpsResult.invalidValue)
    ∧ (set_fps (FpsInput.num (-1)) st d).1.videoFps = some (-1)
    ∧ (set_fps (FpsInput.num (-1)) st d).2.2 = SetFpsResult.success (-1)
    ∧ (∀ seq : Sequence, st.composition.sequence = some seq →
        (set_fps (FpsInput.num (-1)) st d).1.composition.sequence
            = some { seq with timebase := some (-1) }
        ∧ (set_fps (FpsInput.num (-1)) st d).2.1 = [Event.saveComposition]) := by
  have habc : parsePyFloat "abc" = none := by decide
  have hm1 : pyRound ((-1 : ℚ)) = -1 := pyRound_eq_intCast _ (-1) (by norm_num)
  refine ⟨?_, ?_, ?_, ?_⟩
  · simp [set_fps, pyFloatOf, habc]
  · match hs : st.composition.sequence with
    | some seq => simp [set_fps, pyFloatOf, hs]
    | none => simp [set_fps, pyFloatOf, hs]
  · match hs : st.composition.sequence with
    | some seq => simp [set_fps, pyFloatOf, hs]
    | none => simp [set_fps, pyFloatOf, hs]
  · intro seq hs
    constructor <;> simp [set_fps, pyFloatOf, hs, hm1]

/-- Witness for `set_fps_validation` at the fresh startup state:
`"abc"` is rejected without touching the state, while `-1` lands in
the persisted timebase. -/
theorem set_fps_validation_witness :
    set_fps (FpsInput.str "abc") stdState true
        = (stdState, [], SetFpsResult.invalidValue)
    ∧ (set_fps (FpsInput.num (-1)) stdState true).1.composition.sequence
        = some { initial_sequence with timebase := some (-1) } := by
  refine ⟨(set_fps_validation stdState true).1, ?_⟩
  exact ((set_fps_validation stdState true).2.2.2 initial_sequence rfl).1

/-- C10: any float `v` accepted by `set_fps` on a composition that has
a `sequence` key sets the in-memory fps to `v` itself but persists the
integer timebase `round(v)`; a restart (`initialize_data` on the
persisted document) seeds fps from that integer, so any non-integer
`v` — such as 29.97 — is not preserved across the restart. -/
theorem set_fps_restart_rounds (v : ℚ) (st : AppState) (d : Bool)
    (seq : Sequence) (hseq : st.composition.sequence = some seq) :
    (set_fps (FpsInput.num v) st d).1.videoFps = some v
    ∧ (set_fps (FpsInput.num v) st d).1.composition.sequence
        = some { seq with timebase := some (pyRound v) }
    ∧ (init_data none none
          (some (set_fps (FpsInput.num v) st d).1.composition) []).videoFps
        = some ((pyRound v : ℤ) : ℚ)
    ∧ ((∀ n : ℤ, v ≠ (n : ℚ)) → ((pyRound v : ℤ) : ℚ) ≠ v) := by
  refine ⟨?_, ?_, ?_, ?_⟩
  · simp [set_fps, pyFloatOf, hseq]
  · simp [set_fps, pyFloatOf, hseq]
  · simp [set_fps, pyFloatOf, hseq, init_data]
  · intro h heq
    exact h (pyRound v) heq.symm

/-- Witness for `set_fps_restart_rounds` at `v = 29.97` on the fresh
startup state: the in-memory fps is 29.97 but after a reload it is 30,
which differs from 29.97. -/
theorem set_fps_restart_rounds_witness :
    (set_fps (FpsInput.num (2997/100)) stdState true).1.videoFps
        = some (2997/100)
    ∧ (init_data none none
          (some (set_fps (FpsInput.num (2997/100)) stdState true).1.composition)
          []).videoFps
        = some ((30 : ℤ) : ℚ)
    ∧ ((30 : ℤ) : ℚ) ≠ (2997/100 : ℚ) := by
  have h := set_fps_restart_rounds (2997/100) stdState true initial_sequence rfl
  have h30 : pyRound ((2997/100 : ℚ)) = 30 := by
    have := pyRound_eq_of_gt_half ((2997/100 : ℚ)) 29 (by norm_num) (by norm_num)
    omega
  have hni : ∀ n : ℤ, (2997/100 : ℚ) ≠ (n : ℚ) := by
    intro n hn
    have h100 : (2997 : ℚ) = (n : ℚ) * 100 := by
      field_simp at hn
      linarith
    have hz : (2997 : ℤ) = n * 100 := by exact_mod_cast h100
    omega
  refine ⟨h.1, ?_, ?_⟩
  · rw [h.2.2.1, h30]
  · have := h.2.2.2 hni
    rw [h30] at this
    exact this

theorem gen_fpsNotSet_iff (fps : Option ℚ) (tr : List (String × Segment)) (d : Bool) :
    (generate_frame_based_json_api fps tr d).1 = GenResult.fpsNotSet
      ↔ fps = none := by
  match fps with
  | none =>
    simp [generate_frame_based_json_api]
  | some f =>
    constructor
    · intro h
      exfalso
      by_cases htr : tr = [] <;> cases d <;>
        simp [generate_frame_based_json_api, htr] at h
    · intro h
      cases h

/-- C6 amended: the frame-based export fails with the fps-unset
precondition error exactly when `video_fps` is `None`; after startup
that happens only when a composition document was loaded whose
sequence timebase is missing.  In particular, a fresh startup with no
composition file seeds `video_fps` with the default timebase 30, so
the export proceeds even though `set_fps` was never invoked — the
claim's "for every startup state" fails. -/
theorem export_precondition (segs : Option (List RawSegment))
    (imgs : Option (List (String × String))) (cf : Option CompositionData)
    (files : List String) (d : Bool) :
    (((generate_frame_based_json_api (init_data segs imgs cf files).videoFps
          (init_data segs imgs cf files).transcription d).1 = GenResult.fpsNotSet)
        ↔ (init_data segs imgs cf files).videoFps = none)
    ∧ ((init_data segs imgs cf files).videoFps = none
        ↔ ∃ dcomp : CompositionData, cf = some dcomp
            ∧ dcomp.sequence.bind Sequence.timebase = none)
    ∧ (init_data segs imgs none files).videoFps = some ((30 : ℤ) : ℚ) := by
  refine ⟨gen_fpsNotSet_iff _ _ d, ?_, ?_⟩
  · match cf with
    | none =>
      simp [init_data, get_initial_composition_data, initial_sequence]
    | some dcomp =>
      match hs : dcomp.sequence with
      | none => simp [init_data, hs]
      | some s =>
        match ht : s.timebase with
        | none => simp [init_data, hs, ht]
        | some t => simp [init_data, hs, ht]
  · simp [init_data, get_initial_composition_data, initial_sequence]

/-- Counterexample to C6 as stated: a startup in which `set_fps` was
never invoked (fresh environment, no composition file on disk) leaves
`video_fps = 30` — the default timebase — so the frame-based export
succeeds instead of failing with the precondition error. -/
theorem export_without_set_fps_counterexample :
    (init_data (some [c6RawSegment]) none none []).videoFps = some 30
    ∧ (generate_frame_based_json_api
          (init_data (some [c6RawSegment]) none none []).videoFps
          (init_data (some [c6RawSegment]) none none []).transcription true).1
        = GenResult.saved := by
  constructor
  · simp [init_data, get_initial_composition_data, initial_sequence]
  · simp [init_data, get_initial_composition_data, initial_sequence,
      generate_frame_based_json_api, load_transcription_data_web, c6RawSegment]

/-- Counterexample to C4 as stated: `set_fps` is a write-triggering
request, yet when the persistence write fails (`save_json_file`
returns false) the endpoint still reports success — the caller is not
told the document did not round-trip. -/
theorem save_failure_reported_success :
    (set_fps (FpsInput.num 30) stdState false).2.2 = SetFpsResult.success 30
    ∧ (set_fps (FpsInput.num 30) stdState false).2.1 = [Event.saveComposition] := by
  constructor <;>
    simp [set_fps, pyFloatOf, stdState, get_initial_composition_data,
      initial_sequence]

/-- C4 amended: of the write-triggering requests, only the archive
operation inspects the `save_json_file` result and surfaces a
persistence failure as an error; the record-media-acquisition appends
(image dedup-hit append and YouTube append) and `set_fps` ignore the
save result and report success even when the write fails. -/
theorem persistence_failure_reporting (url idx now ytid stdout upl : String)
    (arch : ArchiveData) (st : AppState) (v : ℚ) (p dl : String) (i : ℤ)
    (hurl : url ≠ "") (hidx : idx ≠ "") :
    (archive_storyblocks_link url idx arch now false).2.2 = ArchResult.saveFailed
    ∧ (archive_storyblocks_link url idx arch now true).2.2 = ArchResult.archived
    ∧ (set_fps (FpsInput.num v) st false).2.2 = SetFpsResult.success v
    ∧ (lookupAssoc st.imageDownloads url = some p → parsePyInt idx = some i →
        (download_image_api url idx true true false st).2.2
            = DlImageResult.alreadyDownloaded (basename p))
    ∧ (ytid ≠ "" → parseDownloadSuccess stdout = some dl →
        parsePyInt idx = some i →
        (download_youtube_api ytid idx upl (YtProc.ok stdout) st false).2.2
            = YtResult.success (basename dl)) := by
  refine ⟨?_, ?_, ?_, ?_, ?_⟩
  · simp [archive_storyblocks_link, hurl, hidx]
  · simp [archive_storyblocks_link, hurl, hidx]
  · match hs : st.composition.sequence with
    | some seq => simp [set_fps, pyFloatOf, hs]
    | none => simp [set_fps, pyFloatOf, hs]
  · intro hlk hparse
    simp [download_image_api, hurl, hidx, hlk, hparse]
  · intro hyt hsplit hparse
    simp [download_youtube_api, hyt, hsplit, hparse]

/-- Witness for `persistence_failure_reporting` at concrete inputs:
archive reports the failure, while set-fps, a dedup-hit image append
and a successful YouTube append all report success despite the failed
composition write. -/
theorem persistence_failure_reporting_witness :
    (archive_storyblocks_link "http://e/a.png" "1" [] "t" false).2.2
        = ArchResult.saveFailed
    ∧ (archive_storyblocks_link "http://e/a.png" "1" [] "t" true).2.2
        = ArchResult.archived
    ∧ (set_fps (FpsInput.num 30) hitState false).2.2 = SetFpsResult.success 30
    ∧ (download_image_api "http://e/a.png" "1" true true false hitState).2.2
        = DlImageResult.alreadyDownloaded (basename "downloads/a.png")
    ∧ (download_youtube_api "vid" "1" "up"
          (YtProc.ok "DOWNLOAD_SUCCESS: downloads/v.mp4") hitState false).2.2
        = YtResult.success (basename "downloads/v.mp4") := by
  have h := persistence_failure_reporting "http://e/a.png" "1" "t" "vid"
    "DOWNLOAD_SUCCESS: downloads/v.mp4" "up" [] hitState 30
    "downloads/a.png" "downloads/v.mp4" 1 (by decide) (by decide)
  exact ⟨h.1, h.2.1, h.2.2.1,
    h.2.2.2.1 (by decide) (by decide),
    h.2.2.2.2 (by decide) (by decide) (by decide)⟩

theorem lookup_setKey_self {α : Type} (l : List (String × α)) (k : String) (v : α) :
    lookupAssoc (setKeyAssoc l k v) k = some v := by
  induction l with
  | nil => simp [setKeyAssoc, lookupAssoc]
  | cons hd tl ih =>
    obtain ⟨k1, v1⟩ := hd
    by_cases h : k1 = k
    · subst h
      simp [setKeyAssoc, lookupAssoc]
    · simp [setKeyAssoc, lookupAssoc, h, ih]

theorem add_image_events (fn u : String) (s e : ℚ) (idx : ℤ) (fps : Option ℚ)
    (comp : CompositionData) (d : Bool) :
    (_add_image_to_composition fn u s e idx fps comp d).2.1
      = [Event.saveComposition] := rfl

theorem add_image_clips_len (fn u : String) (s e : ℚ) (idx : ℤ) (fps : Option ℚ)
    (comp : CompositionData) (d : Bool) :
    (clipsOf (_add_image_to_composition fn u s e idx fps comp d).1).length
      = (clipsOf comp).length + 1 := by
  simp only [_add_image_to_composition]
  rw [clipsOf_update]
  simp

theorem download_image_hit_spec (url idx : String) (fOk iOk cOk : Bool)
    (st : AppState) (i : ℤ) (p : String)
    (hurl : url ≠ "") (hidx : idx ≠ "")
    (hhit : lookupAssoc st.imageDownloads url = some p)
    (hparse : parsePyInt idx = some i) :
    download_image_api url idx fOk iOk cOk st
      = ({ st with composition :=
            (_add_image_to_composition (basename p) url
              (segStartEnd st.transcription idx).1
              (segStartEnd st.transcription idx).2 i st.videoFps
              st.composition cOk).1 },
         [Event.saveComposition],
         DlImageResult.alreadyDownloaded (basename p)) := by
  simp only [download_image_api, hhit, hparse]
  rw [if_neg (by simp [hurl, hidx])]
  rw [add_image_events]

theorem download_image_miss_spec (url idx : String) (i1 c1 : Bool)
    (st : AppState) (i : ℤ)
    (hurl : url ≠ "") (hidx : idx ≠ "")
    (hmiss : lookupAssoc st.imageDownloads url = none)
    (hparse : parsePyInt idx = some i) :
    ∃ path : String,
      (download_image_api url idx true i1 c1 st).1.imageDownloads
          = setKeyAssoc st.imageDownloads url path
      ∧ (download_image_api url idx true i1 c1 st).2.2
          = DlImageResult.downloaded (basename path)
      ∧ (download_image_api url idx true i1 c1 st).2.1
          = [Event.fetch url, Event.writePayload path, Event.saveImageIndex,
             Event.saveComposition]
      ∧ (clipsOf (download_image_api url idx true i1 c1 st).1.composition).length
          = (clipsOf st.composition).length + 1
      ∧ (download_image_api url idx true i1 c1 st).1.transcription
          = st.transcription
      ∧ (download_image_api url idx true i1 c1 st).1.videoFps = st.videoFps := by
  simp only [download_image_api, hmiss, hparse]
  rw [if_neg (by simp [hurl, hidx]), if_pos trivial]
  refine ⟨_, rfl, rfl, ?_, ?_, rfl, rfl⟩
  · rfl
  · rw [add_image_clips_len]

/-- C9: the dedup guard.  First part (hit): for every state whose
download index already records the URL, a call skips the network fetch,
the payload write and the index save — its only event is the
composition save — reuses the recorded path's basename as the clip
filename, leaves the index and the download directory unchanged, and
still appends exactly one clip to the timeline.  Second part (miss
then hit): starting without the URL, two invocations fetch and write
the payload exactly once in total while appending two clips, the
second invocation reusing the filename recorded by the first — two
timeline entries, one stored image. -/
theorem dedup_guard (st : AppState) (url idx : String) (i : ℤ)
    (fOk iOk cOk i1 c1 f2 i2 c2 : Bool)
    (hurl : url ≠ "") (hidx : idx ≠ "") (hparse : parsePyInt idx = some i) :
    (∀ p : String, lookupAssoc st.imageDownloads url = some p →
        (download_image_api url idx fOk iOk cOk st).2.2
            = DlImageResult.alreadyDownloaded (basename p)
        ∧ (download_image_api url idx fOk iOk cOk st).2.1
            = [Event.saveComposition]
        ∧ (download_image_api url idx fOk iOk cOk st).1.imageDownloads
            = st.imageDownloads
        ∧ (download_image_api url idx fOk iOk cOk st).1.files = st.files
        ∧ (clipsOf
              (download_image_api url idx fOk iOk cOk st).1.composition).length
            = (clipsOf st.composition).length + 1)
    ∧ (lookupAssoc st.imageDownloads url = none →
        (((download_image_api url idx true i1 c1 st).2.1).filter
            isPayloadWrite).length = 1
        ∧ (lookupAssoc
              (download_image_api url idx true i1 c1 st).1.imageDownloads
              url).isSome = true
        ∧ (∀ p1 : String,
            lookupAssoc (download_image_api url idx true i1 c1 st).1.imageDownloads
                url = some p1 →
            (download_image_api url idx true i1 c1 st).2.2
                = DlImageResult.downloaded (basename p1)
            ∧ (download_image_api url idx f2 i2 c2
                  (download_image_api url idx true i1 c1 st).1).2.2
                = DlImageResult.alreadyDownloaded (basename p1))
        ∧ (((download_image_api url idx f2 i2 c2
              (download_image_api url idx true i1 c1 st).1).2.1).filter
            isPayloadWrite).length = 0
        ∧ (((download_image_api url idx f2 i2 c2
              (download_image_api url idx true i1 c1 st).1).2.1).filter
            isFetch).length = 0
        ∧ (download_image_api url idx f2 i2 c2
              (download_image_api url idx true i1 c1 st).1).1.imageDownloads
            = (download_image_api url idx true i1 c1 st).1.imageDownloads
        ∧ (clipsOf (download_image_api url idx f2 i2 c2
              (download_image_api url idx true i1 c1 st).1).1.composition).length
            = (clipsOf st.composition).length + 2) := by
  constructor
  · intro p hp
    rw [download_image_hit_spec url idx fOk iOk cOk st i p hurl hidx hp hparse]
    refine ⟨rfl, rfl, rfl, rfl, ?_⟩
    simp only
    rw [add_image_clips_len]
  · intro hmiss
    obtain ⟨path, hidx1, hr1, hev1, hlen1, _, _⟩ :=
      download_image_miss_spec url idx i1 c1 st i hurl hidx hmiss hparse
    have hlk1 : lookupAssoc
        (download_image_api url idx true i1 c1 st).1.imageDownloads url
        = some path := by
      rw [hidx1]
      exact lookup_setKey_self _ _ _
    have hD2 := download_image_hit_spec url idx f2 i2 c2
      (download_image_api url idx true i1 c1 st).1 i path hurl hidx hlk1 hparse
    refine ⟨?_, ?_, ?_, ?_, ?_, ?_, ?_⟩
    · rw [hev1]
      simp [isPayloadWrite]
    · rw [hlk1]
      rfl
    · intro p1 hp1
      have hpp : p1 = path := by
        rw [hlk1] at hp1
        exact (Option.some_inj.mp hp1).symm
      subst hpp
      exact ⟨hr1, by rw [hD2]⟩
    · rw [hD2]
      simp [isPayloadWrite]
    · rw [hD2]
      simp [isFetch]
    · rw [hD2]
    · rw [hD2]
      simp only
      rw [add_image_clips_len, hlen1]

/-- Witness for `dedup_guard`: a hit on `hitState` appends one clip
with only a composition save; on `missState`, two invocations for the
same fresh URL write the payload once, record
`downloads/1_untitled_segment.png`, and append two clips, the second
reusing the recorded filename. -/
theorem dedup_guard_witness :
    (download_image_api "http://e/a.png" "1" true true true hitState).2.1
        = [Event.saveComposition]
    ∧ (clipsOf (download_image_api "http://e/a.png" "1" true true true
          hitState).1.composition).length
        = (clipsOf hitState.composition).length + 1
    ∧ (((download_image_api "http://e/b.png" "1" true true true
          missState).2.1).filter isPayloadWrite).length = 1
    ∧ (download_image_api "http://e/b.png" "1" true true true missState).2.2
        = DlImageResult.downloaded (basename "downloads/1_untitled_segment.png")
    ∧ (download_image_api "http://e/b.png" "1" true true true
          (download_image_api "http://e/b.png" "1" true true true
            missState).1).2.2
        = DlImageResult.alreadyDownloaded
            (basename "downloads/1_untitled_segment.png")
    ∧ (clipsOf (download_image_api "http://e/b.png" "1" true true true
          (download_image_api "http://e/b.png" "1" true true true
            missState).1).1.composition).length
        = (clipsOf missState.composition).length + 2 := by
  have hA := dedup_guard hitState "http://e/a.png" "1" 1
    true true true true true true true true
    (by decide) (by decide) (by decide)
  have hB := dedup_guard missState "http://e/b.png" "1" 1
    true true true true true true true true
    (by decide) (by decide) (by decide)
  have hAhit := hA.1 "downloads/a.png" (by decide)
  have hBmiss := hB.2 (by decide)
  have hBboth := hBmiss.2.2.1 "downloads/1_untitled_segment.png" (by decide)
  exact ⟨hAhit.2.1, hAhit.2.2.2.2, hBmiss.1, hBboth.1, hBboth.2,
    hBmiss.2.2.2.2.2.2⟩
